import Mathlib

/-!
Verification of the orchestration and persistence core of the
`ai-Orchestrator` repository (Python sources under `src/orchestrator`,
`src/common`, `src/cli`).

The Python code is shallowly embedded: dataclasses become structures,
Python dicts with string keys become association lists of JSON values,
the SQLite tables in `orchestrator/storage.py` become lists of row
structures, exceptions become `Except String`, and every impure input
(the Anthropic connector's response, a real agent's behaviour,
`datetime.now()`, `uuid`, `Path.resolve`) becomes an explicit parameter.
-/

/-- JSON values, the payload type of Python `dict`-typed fields
(`metadata`, `parameters`, `result`) which `orchestrator/storage.py`
serializes with `json.dumps` / `json.loads`. -/
inductive Json where
  | null : Json
  | bool (b : Bool) : Json
  | num (n : Int) : Json
  | str (s : String) : Json
  | arr (elems : List Json) : Json
  | obj (fields : List (String × Json)) : Json

/-- A Python `dict` with string keys, as stored in `metadata`,
`parameters` and `result` fields: an association list in insertion
order (Python dicts preserve insertion order and have unique keys). -/
abbrev Dict := List (String × Json)

/-- `d.get(k)` on a Python dict. -/
def dget (d : Dict) (k : String) : Option Json :=
  (d.find? (fun p => p.1 == k)).map (fun p => p.2)

/-- `d[k] = v` on a Python dict: overwrite in place if the key exists
(keeping its position), else append. -/
def dset (d : Dict) (k : String) (v : Json) : Dict :=
  if d.any (fun p => p.1 == k) then
    d.map (fun p => if p.1 == k then (k, v) else p)
  else
    d ++ [(k, v)]

/-- Python truthiness of a JSON value (`if result.get('parsed_data'):`). -/
def Json.truthy : Json → Bool
  | .null => false
  | .bool b => b
  | .num n => n != 0
  | .str s => s != ""
  | .arr elems => !elems.isEmpty
  | .obj fields => !fields.isEmpty

/-- Field lookup on a JSON value that is expected to be an object
(`analysis["task_sequence"]`-style access guarded by `in`). -/
def Json.get? : Json → String → Option Json
  | .obj fields, k => dget fields k
  | _, _ => none

/-- Python `str()` of a JSON value as used inside f-strings of the
simulated agent results.  The planner always binds the interpolated
keys to strings, so only the `str` case is ever exercised by the
orchestrator; container cases are abbreviated. -/
def Json.pyStr : Json → String
  | .str s => s
  | .null => "None"
  | .bool true => "True"
  | .bool false => "False"
  | .num n => toString n
  | .arr _ => "[...]"
  | .obj _ => "\x7b...\x7d"

/-- SQLite TEXT equality of a stored value against a string parameter
(`WHERE project_id = ?`): equal only when the stored value is that
exact string. -/
def Json.isStrEq : Json → String → Bool
  | .str s, t => s == t
  | _, _ => false

/-- `class ProjectType(Enum)` from `orchestrator/core.py`. -/
inductive ProjectType where
  | api : ProjectType
  | ui : ProjectType
  | full : ProjectType
deriving DecidableEq

/-- `ProjectType.value`. -/
def ProjectType.value : ProjectType → String
  | .api => "api"
  | .ui => "ui"
  | .full => "full"

/-- `ProjectType(s)`: the enum constructor, `none` on `ValueError`. -/
def ProjectType.ofValue (s : String) : Option ProjectType :=
  if s == "api" then some .api
  else if s == "ui" then some .ui
  else if s == "full" then some .full
  else none

/-- `class ProjectLanguage(Enum)` from `orchestrator/core.py`. -/
inductive ProjectLanguage where
  | java : ProjectLanguage
  | python : ProjectLanguage
deriving DecidableEq

/-- `ProjectLanguage.value`. -/
def ProjectLanguage.value : ProjectLanguage → String
  | .java => "java"
  | .python => "python"

/-- `ProjectLanguage(s)`: the enum constructor, `none` on `ValueError`. -/
def ProjectLanguage.ofValue (s : String) : Option ProjectLanguage :=
  if s == "java" then some .java
  else if s == "python" then some .python
  else none

/-- `class TaskStatus(Enum)` from `orchestrator/core.py` (used for both
projects and tasks). -/
inductive TaskStatus where
  | pending : TaskStatus
  | in_progress : TaskStatus
  | completed : TaskStatus
  | failed : TaskStatus
deriving DecidableEq

/-- `TaskStatus.value`. -/
def TaskStatus.value : TaskStatus → String
  | .pending => "pending"
  | .in_progress => "in_progress"
  | .completed => "completed"
  | .failed => "failed"

/-- `TaskStatus(s)`: the enum constructor, `none` on `ValueError`. -/
def TaskStatus.ofValue (s : String) : Option TaskStatus :=
  if s == "pending" then some .pending
  else if s == "in_progress" then some .in_progress
  else if s == "completed" then some .completed
  else if s == "failed" then some .failed
  else none

/-- `@dataclass ProjectInfo` from `orchestrator/core.py`.  The
`__post_init__` normalisation (`metadata = {}` when `None`) is baked in
by making `metadata` a total `Dict`. -/
structure ProjectInfo where
  id : String
  name : String
  type : ProjectType
  language : ProjectLanguage
  output_path : String
  created_at : String
  updated_at : String
  status : TaskStatus := .pending
  metadata : Dict := []

/-- `@dataclass AgentTask` from `orchestrator/core.py`.  As in
`__post_init__`, `result` defaults to the empty dict. -/
structure AgentTask where
  id : String
  agent_type : String
  operation : String
  parameters : Dict
  status : TaskStatus := .pending
  created_at : String
  completed_at : Option String := none
  result : Dict := []
  error_message : Option String := none

/-- One row of the `projects` table created in
`OrchestratorStorage._init_database`.  The `metadata` column is TEXT
holding `json.dumps` output or NULL; it is modelled as the decoded
JSON value (the dump/load pair is a bijection on JSON values). -/
structure ProjectRow where
  id : String
  name : String
  type : String
  language : String
  output_path : String
  status : String
  created_at : String
  updated_at : String
  metadata : Option Json

/-- One row of the `tasks` table created in
`OrchestratorStorage._init_database`. -/
structure TaskRow where
  id : String
  project_id : Json
  agent_type : String
  operation : String
  parameters : Json
  status : String
  created_at : String
  completed_at : Option String
  result : Option Json
  error_message : Option String

/-- The SQLite database behind `OrchestratorStorage`: the two tables. -/
structure Store where
  projects : List ProjectRow
  tasks : List TaskRow

/-- `INSERT OR REPLACE` keyed on the `id` primary key: replace the
matching row in place, else append. -/
def upsertProject (r : ProjectRow) (rows : List ProjectRow) : List ProjectRow :=
  if rows.any (fun x => x.id == r.id) then
    rows.map (fun x => if x.id == r.id then r else x)
  else
    rows ++ [r]

/-- `INSERT OR REPLACE` on the `tasks` table, keyed on `id`. -/
def upsertTask (r : TaskRow) (rows : List TaskRow) : List TaskRow :=
  if rows.any (fun x => x.id == r.id) then
    rows.map (fun x => if x.id == r.id then r else x)
  else
    rows ++ [r]

/-- The row written by `OrchestratorStorage.save_project`: enums are
stored as `.value` strings and `metadata` as
`json.dumps(project.metadata) if project.metadata else None` (an empty
dict is stored as NULL). -/
def projectRowOf (p : ProjectInfo) : ProjectRow :=
  { id := p.id
    name := p.name
    type := p.type.value
    language := p.language.value
    output_path := p.output_path
    status := p.status.value
    created_at := p.created_at
    updated_at := p.updated_at
    metadata := if p.metadata.isEmpty then none else some (Json.obj p.metadata) }

/-- `OrchestratorStorage.save_project`: upsert by id, return `True`.
(The `except` branch returning `False` covers database I/O failures,
which the embedding does not model: the in-memory table is always
writable.) -/
def save_project (p : ProjectInfo) (st : Store) : Bool × Store :=
  (true, { st with projects := upsertProject (projectRowOf p) st.projects })

/-- Decoding a `projects` row back into a `ProjectInfo`, as done by
`OrchestratorStorage.load_project`: enum constructors applied to the
stored strings (a `ValueError` is caught and surfaces as `None`), and
`metadata = json.loads(row['metadata']) if row['metadata'] else {}`.
`save_project` only ever stores JSON objects in the metadata column. -/
def decodeProjectRow (r : ProjectRow) : Option ProjectInfo := do
  let ty ← ProjectType.ofValue r.type
  let lang ← ProjectLanguage.ofValue r.language
  let stt ← TaskStatus.ofValue r.status
  let md ← match r.metadata with
    | none => some ([] : Dict)
    | some (Json.obj fields) => some fields
    | some _ => none
  some { id := r.id, name := r.name, type := ty, language := lang
         output_path := r.output_path, created_at := r.created_at
         updated_at := r.updated_at, status := stt, metadata := md }

/-- `OrchestratorStorage.load_project`: `SELECT * FROM projects WHERE
id = ?`, `fetchone`, decode; `None` when absent or undecodable. -/
def load_project (project_id : String) (st : Store) : Option ProjectInfo := do
  let r ← st.projects.find? (fun x => x.id == project_id)
  decodeProjectRow r

/-- The row written by `OrchestratorStorage.save_task`: the
`project_id` column is `task.parameters.get('project_id', '')`. -/
def taskRowOf (t : AgentTask) : TaskRow :=
  { id := t.id
    project_id := (dget t.parameters "project_id").getD (Json.str "")
    agent_type := t.agent_type
    operation := t.operation
    parameters := Json.obj t.parameters
    status := t.status.value
    created_at := t.created_at
    completed_at := t.completed_at
    result := if t.result.isEmpty then none else some (Json.obj t.result)
    error_message := t.error_message }

/-- `OrchestratorStorage.save_task`: upsert by id, return `True`. -/
def save_task (t : AgentTask) (st : Store) : Bool × Store :=
  (true, { st with tasks := upsertTask (taskRowOf t) st.tasks })

/-- Decoding a `tasks` row back into an `AgentTask`, as in
`OrchestratorStorage.load_project_tasks` (a `ValueError` from the
status enum surfaces as `none`; `save_task` only ever stores JSON
objects in the `parameters` / `result` columns). -/
def decodeTaskRow (r : TaskRow) : Option AgentTask := do
  let stt ← TaskStatus.ofValue r.status
  let ps ← match r.parameters with
    | Json.obj fields => some fields
    | _ => none
  let res ← match r.result with
    | none => some ([] : Dict)
    | some (Json.obj fields) => some fields
    | some _ => none
  some { id := r.id, agent_type := r.agent_type, operation := r.operation
         parameters := ps, status := stt, created_at := r.created_at
         completed_at := r.completed_at, result := res
         error_message := r.error_message }

/-- Insertion step for `ORDER BY created_at` on the `tasks` table. -/
def insertByCreated (r : TaskRow) : List TaskRow → List TaskRow
  | [] => [r]
  | s :: ss =>
    if compare r.created_at s.created_at == Ordering.gt then
      s :: insertByCreated r ss
    else
      r :: s :: ss

/-- `ORDER BY created_at` (insertion sort; SQLite's order among equal
keys is unspecified, any stable order is a faithful model). -/
def sortByCreated : List TaskRow → List TaskRow
  | [] => []
  | r :: rs => insertByCreated r (sortByCreated rs)

/-- Row decoding loop of `load_project_tasks`: rows are decoded in
order and an exception mid-loop makes the function return the tasks
accumulated so far. -/
def decodeTaskRows : List TaskRow → List AgentTask
  | [] => []
  | r :: rs =>
    match decodeTaskRow r with
    | some t => t :: decodeTaskRows rs
    | none => []

/-- `OrchestratorStorage.load_project_tasks`: `SELECT * FROM tasks
WHERE project_id = ? ORDER BY created_at`, decoded row by row. -/
def load_project_tasks (project_id : String) (st : Store) : List AgentTask :=
  decodeTaskRows (sortByCreated (st.tasks.filter (fun r => r.project_id.isStrEq project_id)))

/-- `OrchestratorStorage.delete_project`: `DELETE FROM tasks WHERE
project_id = ?` then `DELETE FROM projects WHERE id = ?`; returns
`True` unconditionally (the `except` branch covers database I/O
failures only). -/
def delete_project (project_id : String) (st : Store) : Bool × Store :=
  (true,
    { projects := st.projects.filter (fun r => !(r.id == project_id))
      tasks := st.tasks.filter (fun r => !(r.project_id.isStrEq project_id)) })

/-- `AgentOrchestrator._simulate_api_agent_task`: the deterministic
fallback stub for the API agent, per operation.  Missing parameter
keys raise `KeyError` exactly where the Python f-strings index into
`params`. -/
def simulate_api (t : AgentTask) : Except String Dict :=
  if t.operation == "create_project_structure" then
    match dget t.parameters "output_path", dget t.parameters "language",
          dget t.parameters "project_type" with
    | some outp, some lang, some pt =>
      Except.ok
        [("operation", Json.str t.operation),
         ("status", Json.str "completed"),
         ("created_files", Json.arr
            [Json.str (outp.pyStr ++ "/pom.xml"),
             Json.str (outp.pyStr ++ "/src/test/java"),
             Json.str (outp.pyStr ++ "/src/main/resources")]),
         ("message", Json.str
            ("Created " ++ lang.pyStr ++ " " ++ pt.pyStr ++ " project structure"))]
    | _, _, _ => Except.error "KeyError"
  else if t.operation == "generate_tests" then
    match dget t.parameters "output_path" with
    | some outp =>
      Except.ok
        [("operation", Json.str t.operation),
         ("status", Json.str "completed"),
         ("generated_files", Json.arr
            [Json.str (outp.pyStr ++ "/src/test/java/ApiTests.java")]),
         ("test_count", Json.num 5),
         ("message", Json.str "Generated basic API tests")]
    | none => Except.error "KeyError"
  else
    Except.ok
      [("operation", Json.str t.operation),
       ("status", Json.str "completed"),
       ("message", Json.str ("Completed " ++ t.operation))]

/-- `AgentOrchestrator._simulateParserStub_agent_task`: the deterministic
fallback stub for the parser agent (reads no parameters). -/
def simulateParserStub (t : AgentTask) : Except String Dict :=
  if t.operation == "parse_api_specification" then
    Except.ok
      [("operation", Json.str t.operation),
       ("status", Json.str "completed"),
       ("spec_type", Json.str "openapi"),
       ("endpoints_count", Json.num 5),
       ("parsed_data", Json.obj
          [("title", Json.str "Sample API"),
           ("base_url", Json.str "$\x7bapi.base.url\x7d"),
           ("authentication", Json.obj [("type", Json.str "bearer")]),
           ("endpoints", Json.arr
              [Json.obj [("path", Json.str "/users"), ("method", Json.str "GET"),
                         ("test_scenarios", Json.arr [])],
               Json.obj [("path", Json.str "/users"), ("method", Json.str "POST"),
                         ("test_scenarios", Json.arr [])],
               Json.obj [("path", Json.str "/users/\x7bid\x7d"), ("method", Json.str "GET"),
                         ("test_scenarios", Json.arr [])],
               Json.obj [("path", Json.str "/users/\x7bid\x7d"), ("method", Json.str "PUT"),
                         ("test_scenarios", Json.arr [])],
               Json.obj [("path", Json.str "/users/\x7bid\x7d"), ("method", Json.str "DELETE"),
                         ("test_scenarios", Json.arr [])]])]),
       ("message", Json.str "Simulated API specification parsing")]
  else
    Except.ok
      [("operation", Json.str t.operation),
       ("status", Json.str "completed"),
       ("message", Json.str ("Completed " ++ t.operation))]

/-- `AgentOrchestrator._simulate_devops_agent_task`: the deterministic
fallback stub for the DevOps agent. -/
def simulate_devops (t : AgentTask) : Except String Dict :=
  if t.operation == "setup_environment" then
    match dget t.parameters "output_path" with
    | some outp =>
      Except.ok
        [("operation", Json.str t.operation),
         ("status", Json.str "completed"),
         ("created_files", Json.arr
            [Json.str (outp.pyStr ++ "/Dockerfile"),
             Json.str (outp.pyStr ++ "/docker-compose.yml")]),
         ("message", Json.str "Environment setup completed")]
    | none => Except.error "KeyError"
  else
    Except.ok
      [("operation", Json.str t.operation),
       ("status", Json.str "completed"),
       ("message", Json.str ("Completed " ++ t.operation))]

/-- The behaviour of the real, external agents
(`APIAgent`/`DevOpsAgent`/`ParserAgent` invoked by the
`_execute_*_agent_task` methods): an oracle mapping the task to either
a result dict or a raised exception.  The agents live outside the
orchestration core (spec §1 treats them as opaque collaborators). -/
abbrev Worker := AgentTask → Except String Dict

/-- The dispatch part of `AgentOrchestrator.execute_task` together
with the `_execute_*_agent_task` bodies: route on `agent_type`; for a
registered agent, any exception from the real worker is caught and the
deterministic simulation is returned instead; an unregistered
`agent_type` raises `ValueError(f"Unknown agent type: ...")`. -/
def dispatch (W : Worker) (t : AgentTask) : Except String Dict :=
  if t.agent_type == "api_agent" then
    match W t with
    | Except.ok r => Except.ok r
    | Except.error _ => simulate_api t
  else if t.agent_type == "devops_agent" then
    match W t with
    | Except.ok r => Except.ok r
    | Except.error _ => simulate_devops t
  else if t.agent_type == "parser_agent" then
    match W t with
    | Except.ok r => Except.ok r
    | Except.error _ => simulateParserStub t
  else
    Except.error ("Unknown agent type: " ++ t.agent_type)

/-- `AgentOrchestrator.execute_task`: mark the task `in_progress`,
dispatch; on success mark it `completed`, stamp `completed_at`, store
the result and persist; on failure record the exception text as
`error_message`, mark it `failed`, persist, and re-raise. -/
def execute_task (W : Worker) (now : String) (t : AgentTask) (st : Store) :
    Except String Dict × AgentTask × Store :=
  match dispatch W { t with status := TaskStatus.in_progress } with
  | Except.ok r =>
    (Except.ok r,
     { t with status := TaskStatus.completed, completed_at := some now, result := r },
     (save_task { t with status := TaskStatus.completed, completed_at := some now,
                         result := r } st).2)
  | Except.error e =>
    (Except.error e,
     { t with status := TaskStatus.failed, error_message := some e },
     (save_task { t with status := TaskStatus.failed, error_message := some e } st).2)

/-- `project.metadata.get('api_spec_file')` followed by the Python
truthiness test used in `create_task_plan` (the value is a path string
or `None`; an empty string is falsy). -/
def apiSpecFileOf (p : ProjectInfo) : Option String :=
  match dget p.metadata "api_spec_file" with
  | some (Json.str s) => if s == "" then none else some s
  | _ => none

/-- One iteration of the loop in `AgentOrchestrator.create_task_plan`:
`task_info["agent"]` / `task_info["operation"]` raise on a missing key
or a non-object entry; `description` / `dependencies` fall back to
defaults via `.get`; the planner copies the project identity into the
parameters and adds `spec_file_path` for parser tasks when the project
carries a spec file. -/
def planEntry (now : String) (p : ProjectInfo) (specFile : Option String)
    (i : Nat) (info : Json) : Except String AgentTask :=
  match info with
  | Json.obj fields =>
    match dget fields "agent", dget fields "operation" with
    | some (Json.str ag), some (Json.str op) =>
      let base : Dict :=
        [("project_id", Json.str p.id),
         ("project_name", Json.str p.name),
         ("project_type", Json.str p.type.value),
         ("language", Json.str p.language.value),
         ("output_path", Json.str p.output_path),
         ("description", (dget fields "description").getD (Json.str "")),
         ("dependencies", (dget fields "dependencies").getD (Json.arr []))]
      let ps : Dict :=
        match specFile with
        | some f => if ag == "parser_agent" then base ++ [("spec_file_path", Json.str f)] else base
        | none => base
      Except.ok
        { id := p.id ++ "-task-" ++ toString (i + 1)
          agent_type := ag
          operation := op
          parameters := ps
          status := TaskStatus.pending
          created_at := now }
    | _, _ => Except.error "KeyError"
  | _ => Except.error "AttributeError"

/-- The `enumerate` loop of `create_task_plan`. -/
def planEntries (now : String) (p : ProjectInfo) (specFile : Option String) :
    Nat → List Json → Except String (List AgentTask)
  | _, [] => Except.ok []
  | i, info :: rest =>
    match planEntry now p specFile i info with
    | Except.error e => Except.error e
    | Except.ok t =>
      match planEntries now p specFile (i + 1) rest with
      | Except.error e => Except.error e
      | Except.ok ts => Except.ok (t :: ts)

/-- `AgentOrchestrator.create_task_plan`: iterate over
`analysis["task_sequence"]` when present (a non-sequence value raises
`TypeError`), else return the empty plan. -/
def create_task_plan (now : String) (p : ProjectInfo) (analysis : Json) :
    Except String (List AgentTask) :=
  match analysis.get? "task_sequence" with
  | some (Json.arr infos) => planEntries now p (apiSpecFileOf p) 0 infos
  | some _ => Except.error "TypeError"
  | none => Except.ok []

/-- The ordered `(agent_type, operation)` pairs of the plan that
`analyze_project_requirements` + `create_task_plan` produce for a
project, given the structured response returned by the AI connector
(`AnthropicConnector.generate_structured_response`, an external call
whose value the orchestrator does not control). -/
def plannedOps (now : String) (p : ProjectInfo) (aiResponse : Json) :
    Except String (List (String × String)) :=
  (create_task_plan now p aiResponse).map (fun ts => ts.map (fun t => (t.agent_type, t.operation)))

/-- The observable storage activity of a run, in order: the planner /
AI-connector invocation (`analyze_project_requirements`, recorded with
the project status it observes), task-row writes and project-row
writes. -/
inductive Event where
  | analyze (status : TaskStatus) : Event
  | saveTask (r : TaskRow) : Event
  | saveProject (r : ProjectRow) : Event

/-- Result of the task loop of `execute_project_creation` (step 3). -/
structure RunOut where
  tasks : List AgentTask
  results : List Dict
  store : Store
  events : List Event
  parsed : Option Json
  err : Option String

/-- The `for task in tasks:` loop of
`AgentOrchestrator.execute_project_creation`: inject accumulated
`parsed_data` into API-agent tasks, execute each task, collect
results, capture `parsed_data` from parser-agent results, and abort
with the exception of the first failing task (whose `execute_task`
re-raises).  Tasks after a failure are returned untouched.
`injectParsed` is the `task.parameters["parsed_data"] = parsed_data`
injection applied to API-agent tasks when accumulated parsed data is
truthy. -/
def injectParsed (parsed : Option Json) (t : AgentTask) : AgentTask :=
  match parsed with
  | some pd =>
    if t.agent_type == "api_agent" && pd.truthy then
      { t with parameters := dset t.parameters "parsed_data" pd }
    else t
  | none => t

/-- The `parsed_data` accumulator update after a successful task
(`if task.agent_type == "parser_agent" and result.get('parsed_data')`). -/
def nextParsed (parsed : Option Json) (t1 : AgentTask) (r : Dict) : Option Json :=
  if t1.agent_type == "parser_agent" then
    match dget r "parsed_data" with
    | some v => if v.truthy then some v else parsed
    | none => parsed
  else parsed

def runTasks (W : Worker) (now : String) :
    Option Json → Store → List AgentTask → RunOut
  | parsed, st, [] => ⟨[], [], st, [], parsed, none⟩
  | parsed, st, t :: rest =>
    match execute_task W now (injectParsed parsed t) st with
    | (Except.ok r, t1, st1) =>
      let out := runTasks W now (nextParsed parsed t1 r) st1 rest
      ⟨t1 :: out.tasks, r :: out.results, out.store,
       Event.saveTask (taskRowOf t1) :: out.events, out.parsed, out.err⟩
    | (Except.error e, t1, st1) =>
      ⟨t1 :: rest, [], st1, [Event.saveTask (taskRowOf t1)], parsed, some e⟩

/-- The report dict returned by `execute_project_creation`. -/
structure Report where
  project_id : String
  status : String
  analysis : Json
  tasks_completed : Nat
  total_tasks : Nat
  results : List Dict
  parsed_data : Option Json

/-- Full outcome of `execute_project_creation`: the returned report or
re-raised exception, the final in-memory project, the final database,
the final states of the planned task objects, and the ordered event
trace. -/
structure ExecOut where
  result : Except String Report
  project : ProjectInfo
  store : Store
  tasks : List AgentTask
  events : List Event

/-- `AgentOrchestrator.execute_project_creation`: set the project
status to `in_progress` (in memory only), analyze (the AI connector
response `A` is an oracle: the orchestrator forwards whatever
structured response the external model produced, and an exception from
the connector propagates), build the task plan, run the tasks in
order, then either finalize the project as `completed` and return the
report, or on any exception mark the project `failed`, persist it and
re-raise.  The exception handler of the source method performs
`project.status = FAILED; project.updated_at = now` (`failedProject`
below); note that the in-memory `in_progress` transition happens
first, so the handler and finaliser update that same object, and the
`Event.analyze` entry records the `in_progress` status the planner
observes. -/
def failedProject (now : String) (p : ProjectInfo) : ProjectInfo :=
  { p with status := TaskStatus.failed, updated_at := now }

/-- The step-4 success finalisation: `project.status = COMPLETED;
project.updated_at = now`. -/
def completedProject (now : String) (p : ProjectInfo) : ProjectInfo :=
  { p with status := TaskStatus.completed, updated_at := now }

def execute_project_creation (W : Worker) (A : Except String Json) (now : String)
    (p : ProjectInfo) (st : Store) : ExecOut :=
  match A with
  | Except.error e =>
    ⟨Except.error e, failedProject now p, (save_project (failedProject now p) st).2, [],
     [Event.analyze TaskStatus.in_progress,
      Event.saveProject (projectRowOf (failedProject now p))]⟩
  | Except.ok analysis =>
    match create_task_plan now { p with status := TaskStatus.in_progress } analysis with
    | Except.error e =>
      ⟨Except.error e, failedProject now p, (save_project (failedProject now p) st).2, [],
       [Event.analyze TaskStatus.in_progress,
        Event.saveProject (projectRowOf (failedProject now p))]⟩
    | Except.ok tasks =>
      match (runTasks W now none st tasks).err with
      | some e =>
        ⟨Except.error e, failedProject now p,
         (save_project (failedProject now p) (runTasks W now none st tasks).store).2,
         (runTasks W now none st tasks).tasks,
         Event.analyze TaskStatus.in_progress :: (runTasks W now none st tasks).events ++
           [Event.saveProject (projectRowOf (failedProject now p))]⟩
      | none =>
        ⟨Except.ok
           { project_id := p.id
             status := TaskStatus.completed.value
             analysis := analysis
             tasks_completed := ((runTasks W now none st tasks).tasks.filter
               (fun t => t.status == TaskStatus.completed)).length
             total_tasks := tasks.length
             results := (runTasks W now none st tasks).results
             parsed_data := (runTasks W now none st tasks).parsed }
         , completedProject now p,
         (save_project (completedProject now p) (runTasks W now none st tasks).store).2,
         (runTasks W now none st tasks).tasks,
         Event.analyze TaskStatus.in_progress :: (runTasks W now none st tasks).events ++
           [Event.saveProject (projectRowOf (completedProject now p))]⟩

/-- The in-memory `active_projects` registry of `AgentOrchestrator`
(a Python dict keyed by project id). -/
abbrev Registry := List (String × ProjectInfo)

/-- Dict assignment on the registry. -/
def regSet (reg : Registry) (k : String) (v : ProjectInfo) : Registry :=
  if reg.any (fun e => e.1 == k) then
    reg.map (fun e => if e.1 == k then (k, v) else e)
  else
    reg ++ [(k, v)]

/-- `AgentOrchestrator.create_new_project`: build the `ProjectInfo`
(the fresh uuid-derived id and both timestamps are explicit inputs),
register it in `active_projects` and persist it.  The metadata holds
`api_spec_file if api_spec_file else None`. -/
def create_new_project (projectId now : String) (name : String)
    (project_type : ProjectType) (language : ProjectLanguage)
    (output_path : String) (api_spec_file : Option String)
    (reg : Registry) (st : Store) : ProjectInfo × Registry × Store :=
  let specVal : Json :=
    match api_spec_file with
    | some f => if f == "" then Json.null else Json.str f
    | none => Json.null
  let project : ProjectInfo :=
    { id := projectId, name := name, type := project_type, language := language
      output_path := output_path, created_at := now, updated_at := now
      status := TaskStatus.pending
      metadata := [("api_spec_file", specVal)] }
  (project, regSet reg projectId project, (save_project project st).2)

/-- Python `str.startswith`, as used by the CLI path guard. -/
def pyStartsWith (s pre : String) : Bool :=
  pre.data.isPrefixOf s.data

/-- The `create_project` command of `cli/main.py` (its inner async
`create_project`), up to and including project creation: compose
`output_dir_path` from the configured or given output directory and
the project name, resolve it (`R` models `Path.resolve`;
`orchestratorPath` is the already-resolved orchestrator installation
directory `Path(__file__).parent.parent.resolve()`), refuse to create
a project whose resolved path starts with the orchestrator path, ask
for confirmation, then call `AgentOrchestrator.create_new_project`.
The subsequent `execute_project_creation` workflow call is modelled
separately; the `project_config` keyword the CLI also passes is not a
parameter of `create_new_project`'s definition and carries no state
modelled here.  `outPathOf` is the `output_dir_path` composition
(`f"\x7bdir\x7d\\\x7bname\x7d"`). -/
def outPathOf (outputDir : Option String) (cfgOutputPath name : String) : String :=
  match outputDir with
  | none => cfgOutputPath ++ "\\" ++ name
  | some d => d ++ "\\" ++ name

def create_project (R : String → String) (orchestratorPath : String)
    (outputDir : Option String) (cfgOutputPath : String) (name : String)
    (confirm : Bool) (project_type : ProjectType) (language : ProjectLanguage)
    (api_spec_file : Option String) (projectId now : String)
    (reg : Registry) (st : Store) : Option ProjectInfo × Registry × Store :=
  let output_dir_path := outPathOf outputDir cfgOutputPath name
  let project_path := R output_dir_path
  if pyStartsWith project_path orchestratorPath then
    (none, reg, st)
  else if !confirm then
    (none, reg, st)
  else
    let (pr, reg1, st1) :=
      create_new_project projectId now name project_type language
        output_dir_path api_spec_file reg st
    (some pr, reg1, st1)

/-- The empty database, as created by `_init_database` on first use. -/
def emptyStore : Store := { projects := [], tasks := [] }

/-- A concrete task whose parameters lack the `project_id` key. -/
def orphanTask : AgentTask :=
  { id := "t1", agent_type := "api_agent", operation := "generate_tests"
    parameters := [], status := TaskStatus.pending, created_at := "T0" }

/-- A worker oracle for runs in which every real agent invocation
raises (for example, the agent modules cannot be imported or the
external generation service is unreachable). -/
def W0 : Worker := fun _ => Except.error "agent unavailable"

/-- A concrete project used to exercise the workflow. -/
def demoProject : ProjectInfo :=
  { id := "p1", name := "demo", type := ProjectType.api
    language := ProjectLanguage.java, output_path := "C:\\out"
    created_at := "T0", updated_at := "T0" }

/-- A structured AI response whose task sequence names an agent type
that is not registered in `available_agents`. -/
def badAgentAnalysis : Json :=
  Json.obj [("task_sequence", Json.arr
    [Json.obj [("agent", Json.str "db_agent"), ("operation", Json.str "migrate")]])]

/-- A structured AI response with the standard two-task sequence for a
project without a spec file. -/
def simpleAnalysis : Json :=
  Json.obj [("task_sequence", Json.arr
    [Json.obj [("agent", Json.str "api_agent"),
               ("operation", Json.str "create_project_structure")],
     Json.obj [("agent", Json.str "devops_agent"),
               ("operation", Json.str "create_docker_setup")]])]

/-- A structured AI response carrying no `task_sequence` key, as
`generate_structured_response` returns when the model's text could not
be parsed as JSON (it falls back to `{"response": text}`). -/
def noSeqAnalysis : Json :=
  Json.obj [("response", Json.str "free-form model text without JSON")]

/-- A concrete planner-shaped API-agent task. -/
def apiTask : AgentTask :=
  { id := "p1-task-1", agent_type := "api_agent"
    operation := "create_project_structure"
    parameters :=
      [("project_id", Json.str "p1"), ("project_name", Json.str "demo"),
       ("project_type", Json.str "api"), ("language", Json.str "java"),
       ("output_path", Json.str "C:\\out"), ("description", Json.str ""),
       ("dependencies", Json.arr [])]
    status := TaskStatus.pending, created_at := "T0" }

/-- A concrete task with an unregistered agent type. -/
def unknownTask : AgentTask :=
  { id := "t9", agent_type := "db_agent", operation := "migrate"
    parameters := [], status := TaskStatus.pending, created_at := "T0" }

/-- Recogniser for project-row write events. -/
def Event.isSaveProject : Event → Bool
  | .saveProject _ => true
  | _ => false

/-- The task plan built from `badAgentAnalysis` for `demoProject`. -/
def badPlanTasks : List AgentTask :=
  [{ id := "p1-task-1", agent_type := "db_agent", operation := "migrate"
     parameters :=
       [("project_id", Json.str "p1"), ("project_name", Json.str "demo"),
        ("project_type", Json.str "api"), ("language", Json.str "java"),
        ("output_path", Json.str "C:\\out"), ("description", Json.str ""),
        ("dependencies", Json.arr [])]
     status := TaskStatus.pending, created_at := "T1" }]

/-- A second structured AI response with the same `task_sequence` as
`simpleAnalysis` but extra unrelated fields. -/
def simpleAnalysisVariant : Json :=
  Json.obj [("task_sequence", Json.arr
    [Json.obj [("agent", Json.str "api_agent"),
               ("operation", Json.str "create_project_structure")],
     Json.obj [("agent", Json.str "devops_agent"),
               ("operation", Json.str "create_docker_setup")]]),
    ("complexity", Json.str "simple")]

/-- After replacing every id-matching row, the first id-match found is
the new row (helper for the `INSERT OR REPLACE` upsert). -/
theorem find?_map_replace (r : ProjectRow) (rows : List ProjectRow)
    (h : rows.any (fun x => x.id == r.id) = true) :
    (rows.map (fun x => if x.id == r.id then r else x)).find?
      (fun x => x.id == r.id) = some r := by
  induction rows with
  | nil => simp at h
  | cons a as ih =>
    rw [List.map_cons]
    by_cases ha : (a.id == r.id) = true
    · rw [if_pos ha]
      exact List.find?_cons_of_pos _ (by simp)
    · rw [if_neg ha]
      have step :
          List.find? (fun x => x.id == r.id)
            (a :: List.map (fun x => if x.id == r.id then r else x) as) =
          List.find? (fun x => x.id == r.id)
            (List.map (fun x => if x.id == r.id then r else x) as) :=
        List.find?_cons_of_neg _ ha
      rw [step]
      simp only [List.any_cons, Bool.or_eq_true] at h
      exact ih (h.resolve_left ha)

/-- If no existing row matches the id, the appended row is found. -/
theorem find?_append_fresh (r : ProjectRow) (rows : List ProjectRow)
    (h : rows.any (fun x => x.id == r.id) = false) :
    ((rows ++ [r]).find? (fun x => x.id == r.id)) = some r := by
  induction rows with
  | nil =>
    rw [List.nil_append]
    exact List.find?_cons_of_pos _ (by simp)
  | cons a as ih =>
    rw [List.any_cons] at h
    have h2 : (a.id == r.id) = false ∧ (as.any fun x => x.id == r.id) = false := by
      simpa using h
    rw [List.cons_append]
    have step :
        List.find? (fun x => x.id == r.id) (a :: (as ++ [r])) =
        List.find? (fun x => x.id == r.id) (as ++ [r]) :=
      List.find?_cons_of_neg _ (by simp [h2.1])
    rw [step]
    exact ih h2.2

/-- Looking up the stored id right after an upsert returns the new row. -/
theorem find?_upsertProject (r : ProjectRow) (rows : List ProjectRow) :
    (upsertProject r rows).find? (fun x => x.id == r.id) = some r := by
  unfold upsertProject
  by_cases h : rows.any (fun x => x.id == r.id) = true
  · simp only [h, if_true]
    exact find?_map_replace r rows h
  · simp only [Bool.not_eq_true] at h
    simp only [h, Bool.false_eq_true, if_false]
    exact find?_append_fresh r rows h

/-- Decoding the row written for a project recovers the project: the
enum `.value` strings decode to the original constructors and the
metadata NULL-for-empty convention is inverted exactly. -/
theorem decode_projectRowOf (p : ProjectInfo) :
    decodeProjectRow (projectRowOf p) = some p := by
  rcases p with ⟨i, n, ty, lang, op, ca, ua, stt, md⟩
  cases ty <;> cases lang <;> cases stt <;> cases md <;>
    simp [decodeProjectRow, projectRowOf, ProjectType.ofValue, ProjectType.value,
      ProjectLanguage.ofValue, ProjectLanguage.value, TaskStatus.ofValue,
      TaskStatus.value, List.isEmpty]

/-- C4: for every valid project (any combination of the type, language
and status enums and any metadata mapping), `save_project` succeeds
and `load_project` on its id returns a project equal to it in every
field, with enum fields and the metadata mapping decoded back to their
original values. -/
theorem save_project_load_project_roundtrip (p : ProjectInfo) (st : Store) :
    (save_project p st).1 = true ∧
    load_project p.id (save_project p st).2 = some p := by
  refine ⟨rfl, ?_⟩
  show (Option.bind ((upsertProject (projectRowOf p) st.projects).find?
      (fun x => x.id == p.id)) decodeProjectRow) = some p
  have h := find?_upsertProject (projectRowOf p) st.projects
  rw [show (projectRowOf p).id = p.id from rfl] at h
  rw [h, Option.bind]
  exact decode_projectRowOf p

/-- C7 counterexample: deleting a project id that does not exist in
the store returns `True`, not the failure the claim requires. -/
theorem delete_project_missing_returns_true :
    (delete_project "missing" ⟨[], []⟩).1 = true := rfl

/-- C7 (amended): `delete_project` returns `True` whether or not the
id exists; calling it twice returns `True` both times, the second call
is a no-op on the store, and for a non-existent id the projects table
is unchanged. -/
theorem delete_project_idempotent (project_id : String) (st : Store) :
    (delete_project project_id st).1 = true ∧
    (delete_project project_id (delete_project project_id st).2).1 = true ∧
    (delete_project project_id (delete_project project_id st).2).2 =
      (delete_project project_id st).2 ∧
    ((∀ r ∈ st.projects, r.id ≠ project_id) →
      (delete_project project_id st).2.projects = st.projects) := by
  refine ⟨rfl, rfl, ?_, ?_⟩
  · simp [delete_project, List.filter_filter]
  · intro h
    simp only [delete_project]
    apply List.filter_eq_self.mpr
    intro r hr
    simpa using h r hr

/-- C7 witness: the amended behaviour at a concrete id and store. -/
theorem delete_project_idempotent_witness :
    (delete_project "p9" ⟨[], []⟩).1 = true ∧
    (delete_project "p9" (delete_project "p9" ⟨[], []⟩).2).1 = true ∧
    (delete_project "p9" (delete_project "p9" ⟨[], []⟩).2).2 =
      (delete_project "p9" ⟨[], []⟩).2 ∧
    ((∀ r ∈ (⟨[], []⟩ : Store).projects, r.id ≠ "p9") →
      (delete_project "p9" (⟨[], []⟩ : Store)).2.projects =
        (⟨[], []⟩ : Store).projects) :=
  delete_project_idempotent "p9" ⟨[], []⟩

/-- A decoded task keeps the row's id. -/
theorem decodeTaskRow_id (r : TaskRow) (u : AgentTask)
    (h : decodeTaskRow r = some u) : u.id = r.id := by
  unfold decodeTaskRow at h
  cases hs : TaskStatus.ofValue r.status with
  | none => rw [hs] at h; simp [Option.bind] at h
  | some stt =>
    rw [hs] at h
    cases hp : r.parameters with
    | obj fields =>
      rw [hp] at h
      cases hr : r.result with
      | none => rw [hr] at h; simp [Option.bind] at h; rw [← h]
      | some j =>
        rw [hr] at h
        cases j with
        | obj f2 => simp [Option.bind] at h; rw [← h]
        | null => simp [Option.bind] at h
        | bool b => simp [Option.bind] at h
        | num n => simp [Option.bind] at h
        | str s => simp [Option.bind] at h
        | arr a => simp [Option.bind] at h
    | null => rw [hp] at h; simp [Option.bind] at h
    | bool b => rw [hp] at h; simp [Option.bind] at h
    | num n => rw [hp] at h; simp [Option.bind] at h
    | str s => rw [hp] at h; simp [Option.bind] at h
    | arr a => rw [hp] at h; simp [Option.bind] at h

/-- Every task produced by the decoding loop comes from one of the rows. -/
theorem mem_decodeTaskRows (u : AgentTask) :
    ∀ rows : List TaskRow, u ∈ decodeTaskRows rows →
      ∃ r ∈ rows, decodeTaskRow r = some u := by
  intro rows
  induction rows with
  | nil => intro h; simp [decodeTaskRows] at h
  | cons r rs ih =>
    intro h
    unfold decodeTaskRows at h
    cases hd : decodeTaskRow r with
    | none => rw [hd] at h; simp at h
    | some t =>
      rw [hd] at h
      rcases List.mem_cons.mp h with h1 | h2
      · exact ⟨r, List.mem_cons_self r rs, by rw [hd, h1]⟩
      · obtain ⟨r', hr', hdec⟩ := ih h2
        exact ⟨r', List.mem_cons_of_mem r hr', hdec⟩

/-- Insertion into the `created_at`-sorted list adds no new rows. -/
theorem mem_insertByCreated (x r : TaskRow) :
    ∀ l : List TaskRow, x ∈ insertByCreated r l → x = r ∨ x ∈ l := by
  intro l
  induction l with
  | nil => intro h; simp [insertByCreated] at h; exact Or.inl h
  | cons s ss ih =>
    intro h
    unfold insertByCreated at h
    by_cases hc : (compare r.created_at s.created_at == Ordering.gt) = true
    · rw [if_pos hc] at h
      rcases List.mem_cons.mp h with h1 | h2
      · exact Or.inr (List.mem_cons.mpr (Or.inl h1))
      · rcases ih h2 with h3 | h4
        · exact Or.inl h3
        · exact Or.inr (List.mem_cons.mpr (Or.inr h4))
    · rw [if_neg hc] at h
      rcases List.mem_cons.mp h with h1 | h2
      · exact Or.inl h1
      · exact Or.inr h2

/-- Sorting by `created_at` adds no new rows. -/
theorem mem_sortByCreated (x : TaskRow) :
    ∀ l : List TaskRow, x ∈ sortByCreated l → x ∈ l := by
  intro l
  induction l with
  | nil => intro h; simp [sortByCreated] at h
  | cons r rs ih =>
    intro h
    unfold sortByCreated at h
    rcases mem_insertByCreated x r _ h with h1 | h2
    · exact List.mem_cons.mpr (Or.inl h1)
    · exact List.mem_cons.mpr (Or.inr (ih h2))

/-- C10: `save_task` stores, as the owning project id, the value of
the `project_id` key of the task's parameters, defaulting to the empty
string when absent; a task saved without that key is therefore
persisted under the empty project id and is never returned by
`load_project_tasks` for any non-empty project id. -/
theorem save_task_orphan_invisible (t : AgentTask) (st : Store) (pid : String)
    (hkey : dget t.parameters "project_id" = none)
    (hfresh : ∀ r ∈ st.tasks, r.id ≠ t.id)
    (hpid : pid ≠ "") :
    (save_task t st).1 = true ∧
    (taskRowOf t).project_id = Json.str "" ∧
    taskRowOf t ∈ (save_task t st).2.tasks ∧
    ∀ u ∈ load_project_tasks pid (save_task t st).2, u.id ≠ t.id := by
  have hrow : (taskRowOf t).project_id = Json.str "" := by
    unfold taskRowOf
    rw [hkey]
    rfl
  have hany : (st.tasks.any fun x => x.id == (taskRowOf t).id) = false := by
    rw [List.any_eq_false]
    intro r hr
    have := hfresh r hr
    simpa [taskRowOf] using this
  have htasks : (save_task t st).2.tasks = st.tasks ++ [taskRowOf t] := by
    show upsertTask (taskRowOf t) st.tasks = st.tasks ++ [taskRowOf t]
    unfold upsertTask
    rw [hany]
    simp
  refine ⟨rfl, hrow, ?_, ?_⟩
  · rw [htasks]
    exact List.mem_append.mpr (Or.inr (List.mem_cons_self _ _))
  · intro u hu hid
    obtain ⟨r', hr'mem, hdec⟩ :=
      mem_decodeTaskRows u _ hu
    have hr'filter := mem_sortByCreated r' _ hr'mem
    have hr'tab : r' ∈ (save_task t st).2.tasks ∧ r'.project_id.isStrEq pid = true := by
      have := List.mem_filter.mp hr'filter
      exact ⟨this.1, this.2⟩
    have hid' : r'.id = t.id := by
      rw [← decodeTaskRow_id r' u hdec, hid]
    rcases List.mem_append.mp (htasks ▸ hr'tab.1) with hin | hnew
    · exact hfresh r' hin hid'
    · have : r' = taskRowOf t := by simpa using hnew
      rw [this, hrow] at hr'tab
      have hEq : "" = pid := by simpa [Json.isStrEq] using hr'tab.2
      exact hpid hEq.symm

/-- C10 witness: a concrete task with no `project_id` parameter saved
into an empty store is stored under project id `""` and is invisible
to `load_project_tasks "p1"`. -/
theorem save_task_orphan_invisible_witness :
    (save_task orphanTask emptyStore).1 = true ∧
    (taskRowOf orphanTask).project_id = Json.str "" ∧
    taskRowOf orphanTask ∈ (save_task orphanTask emptyStore).2.tasks ∧
    ∀ u ∈ load_project_tasks "p1" (save_task orphanTask emptyStore).2,
      u.id ≠ orphanTask.id :=
 by
  refine save_task_orphan_invisible orphanTask emptyStore "p1" rfl ?_ ?_
  · intro r hr
    simp [emptyStore] at hr
  · decide

/-- A string is a `startswith`-prefix of itself followed by anything. -/
theorem pyStartsWith_self_append (a b : String) :
    pyStartsWith (a ++ b) a = true := by
  unfold pyStartsWith
  rw [String.data_append]
  induction a.data with
  | nil => simp [List.isPrefixOf]
  | cons c cs ih => simp [List.isPrefixOf, ih]

/-- A string is a `startswith`-prefix of itself. -/
theorem pyStartsWith_self (a : String) : pyStartsWith a a = true := by
  unfold pyStartsWith
  induction a.data with
  | nil => simp [List.isPrefixOf]
  | cons c cs ih => simp [List.isPrefixOf, ih]

/-- C1: when the composed output location resolves to a path equal to
or nested under the orchestrator's own (resolved) installation
directory, the CLI `create_project` command fails before any Store
write: the database and the in-memory project registry are unchanged
and no project is returned. -/
theorem create_project_inside_orchestrator_fails
    (R : String → String) (orchestratorPath : String) (outputDir : Option String)
    (cfgOutputPath name : String) (confirm : Bool) (project_type : ProjectType)
    (language : ProjectLanguage) (api_spec_file : Option String)
    (projectId now : String) (reg : Registry) (st : Store)
    (h : R (outPathOf outputDir cfgOutputPath name) = orchestratorPath ∨
         ∃ rest, R (outPathOf outputDir cfgOutputPath name) = orchestratorPath ++ rest) :
    create_project R orchestratorPath outputDir cfgOutputPath name confirm
      project_type language api_spec_file projectId now reg st = (none, reg, st) := by
  have hs : pyStartsWith (R (outPathOf outputDir cfgOutputPath name)) orchestratorPath = true := by
    rcases h with h1 | ⟨rest, h2⟩
    · rw [h1]
      exact pyStartsWith_self orchestratorPath
    · rw [h2]
      exact pyStartsWith_self_append orchestratorPath rest
  unfold create_project
  rw [if_pos hs]

/-- C1 witness: a concrete output path nested under the orchestrator
directory is refused with no store write and no registration. -/
theorem create_project_inside_orchestrator_fails_witness :
    create_project (fun s => s) "C:\\orch" (some "C:\\orch\\work") "D:\\projects"
      "demo" true ProjectType.api ProjectLanguage.java none "id1" "T0" [] emptyStore =
      (none, [], emptyStore) := by
  refine create_project_inside_orchestrator_fails (fun s => s) "C:\\orch"
    (some "C:\\orch\\work") "D:\\projects" "demo" true ProjectType.api
    ProjectLanguage.java none "id1" "T0" [] emptyStore ?_
  exact Or.inr ⟨"\\work\\demo", by decide⟩

/-- The upserted row is present after an upsert of the `tasks` table. -/
theorem mem_upsertTask_self (r : TaskRow) (rows : List TaskRow) :
    r ∈ upsertTask r rows := by
  unfold upsertTask
  by_cases h : rows.any (fun x => x.id == r.id) = true
  · rw [if_pos h]
    obtain ⟨x, hx, hid⟩ := List.any_eq_true.mp h
    have hfx : (fun x => if x.id == r.id then r else x) x = r := by
      simp only [hid, if_true]
    exact List.mem_map.mpr ⟨x, hx, hfx⟩
  · rw [if_neg h]
    exact List.mem_append.mpr (Or.inr (List.mem_cons_self _ _))

/-- Any row present after an upsert is the new row or an old row. -/
theorem mem_upsertTask (x r : TaskRow) (rows : List TaskRow)
    (h : x ∈ upsertTask r rows) : x = r ∨ x ∈ rows := by
  unfold upsertTask at h
  by_cases ha : rows.any (fun y => y.id == r.id) = true
  · rw [if_pos ha] at h
    obtain ⟨y, hy, heq⟩ := List.mem_map.mp h
    by_cases hid : (y.id == r.id) = true
    · rw [if_pos hid] at heq
      exact Or.inl heq.symm
    · rw [if_neg hid] at heq
      exact Or.inr (heq ▸ hy)
  · rw [if_neg ha] at h
    rcases List.mem_append.mp h with h1 | h2
    · exact Or.inr h1
    · exact Or.inl (by simpa using h2)

/-- The upserted row is present after an upsert of the `projects` table. -/
theorem mem_upsertProject_self (r : ProjectRow) (rows : List ProjectRow) :
    r ∈ upsertProject r rows := by
  unfold upsertProject
  by_cases h : rows.any (fun x => x.id == r.id) = true
  · rw [if_pos h]
    obtain ⟨x, hx, hid⟩ := List.any_eq_true.mp h
    have hfx : (fun x => if x.id == r.id then r else x) x = r := by
      simp only [hid, if_true]
    exact List.mem_map.mpr ⟨x, hx, hfx⟩
  · rw [if_neg h]
    exact List.mem_append.mpr (Or.inr (List.mem_cons_self _ _))

/-- Characterisation of the failure case of `execute_task`: the task
comes back `failed` with the exception recorded, after being saved. -/
theorem execute_task_error_spec (W : Worker) (now : String) (t : AgentTask)
    (st : Store) (e : String) (t1 : AgentTask) (st1 : Store)
    (h : execute_task W now t st = (Except.error e, t1, st1)) :
    t1 = { t with status := TaskStatus.failed, error_message := some e } ∧
    st1 = (save_task t1 st).2 := by
  unfold execute_task at h
  cases hd : dispatch W { t with status := TaskStatus.in_progress } with
  | ok r =>
    rw [hd] at h
    simp [Prod.ext_iff] at h
  | error e2 =>
    rw [hd] at h
    simp only [Prod.mk.injEq, Except.error.injEq] at h
    obtain ⟨he, ht, hs⟩ := h
    subst he
    exact ⟨ht.symm, by rw [← ht, ← hs]⟩

/-- Characterisation of the success case of `execute_task`: the task
comes back `completed` with the result and timestamp recorded, after
being saved. -/
theorem execute_task_ok_spec (W : Worker) (now : String) (t : AgentTask)
    (st : Store) (r : Dict) (t1 : AgentTask) (st1 : Store)
    (h : execute_task W now t st = (Except.ok r, t1, st1)) :
    t1 = { t with status := TaskStatus.completed, completed_at := some now,
                  result := r } ∧
    st1 = (save_task t1 st).2 := by
  unfold execute_task at h
  cases hd : dispatch W { t with status := TaskStatus.in_progress } with
  | ok r2 =>
    rw [hd] at h
    simp only [Prod.mk.injEq, Except.ok.injEq] at h
    obtain ⟨he, ht, hs⟩ := h
    subst he
    exact ⟨ht.symm, by rw [← ht, ← hs]⟩
  | error e2 =>
    rw [hd] at h
    simp [Prod.ext_iff] at h

/-- If the task loop finishes without an exception, every task object
ends in status `completed`. -/
theorem runTasks_ok_all_completed (W : Worker) (now : String) :
    ∀ (tasks : List AgentTask) (parsed : Option Json) (st : Store),
      (runTasks W now parsed st tasks).err = none →
      ∀ t1 ∈ (runTasks W now parsed st tasks).tasks,
        t1.status = TaskStatus.completed := by
  intro tasks
  induction tasks with
  | nil =>
    intro parsed st h t1 ht
    simp [runTasks] at ht
  | cons t rest ih =>
    intro parsed st h t1 ht
    rcases hstep : execute_task W now (injectParsed parsed t) st with ⟨res, t2, st2⟩
    cases res with
    | ok r =>
      obtain ⟨ht2, hst2⟩ := execute_task_ok_spec _ _ _ _ _ _ _ hstep
      simp only [runTasks, hstep] at h ht
      rcases List.mem_cons.mp ht with h1 | h2
      · rw [h1, ht2]
      · exact ih _ _ h t1 h2
    | error e =>
      simp only [runTasks, hstep] at h
      simp at h

/-- If the task loop aborts with exception `e`, the task objects split
into a completed prefix, one failed task carrying `e` whose row is in
the final store, and an untouched suffix of the original list. -/
theorem runTasks_err_spec (W : Worker) (now : String) :
    ∀ (tasks : List AgentTask) (parsed : Option Json) (st : Store) (e : String),
      (runTasks W now parsed st tasks).err = some e →
      ∃ pre tf suf,
        (runTasks W now parsed st tasks).tasks = pre ++ tf :: suf ∧
        (∀ t1 ∈ pre, t1.status = TaskStatus.completed) ∧
        tf.status = TaskStatus.failed ∧
        tf.error_message = some e ∧
        taskRowOf tf ∈ (runTasks W now parsed st tasks).store.tasks ∧
        suf = tasks.drop (pre.length + 1) := by
  intro tasks
  induction tasks with
  | nil =>
    intro parsed st e h
    simp [runTasks] at h
  | cons t rest ih =>
    intro parsed st e h
    rcases hstep : execute_task W now (injectParsed parsed t) st with ⟨res, t2, st2⟩
    cases res with
    | error e2 =>
      obtain ⟨ht2, hst2⟩ := execute_task_error_spec _ _ _ _ _ _ _ hstep
      simp only [runTasks, hstep] at h ⊢
      have he : e2 = e := by simpa using h
      subst he
      refine ⟨[], t2, rest, by simp, by simp, ?_, ?_, ?_, by simp⟩
      · rw [ht2]
      · rw [ht2]
      · rw [hst2]
        exact mem_upsertTask_self _ _
    | ok r =>
      obtain ⟨ht2, hst2⟩ := execute_task_ok_spec _ _ _ _ _ _ _ hstep
      simp only [runTasks, hstep] at h ⊢
      obtain ⟨pre, tf, suf, htasks, hpre, htf, herr2, hrow, hsuf⟩ :=
        ih (nextParsed parsed t2 r) st2 e h
      refine ⟨t2 :: pre, tf, suf, by simp [htasks], ?_, htf, herr2, hrow, ?_⟩
      · intro u hu
        rcases List.mem_cons.mp hu with h1 | h2
        · rw [h1, ht2]
        · exact hpre u h2
      · simp only [List.length_cons, List.drop_succ_cons]
        exact hsuf

/-- Every task row in the store after the loop was either already
there or is the saved row of a task object the loop executed (whose
status is no longer `pending`). -/
theorem runTasks_store_rows (W : Worker) (now : String) :
    ∀ (tasks : List AgentTask) (parsed : Option Json) (st : Store) (r : TaskRow),
      r ∈ (runTasks W now parsed st tasks).store.tasks →
      r ∈ st.tasks ∨
      ∃ t1, t1 ∈ (runTasks W now parsed st tasks).tasks ∧
        t1.status ≠ TaskStatus.pending ∧ r = taskRowOf t1 := by
  intro tasks
  induction tasks with
  | nil =>
    intro parsed st r h
    simp only [runTasks] at h
    exact Or.inl h
  | cons t rest ih =>
    intro parsed st r h
    rcases hstep : execute_task W now (injectParsed parsed t) st with ⟨res, t2, st2⟩
    cases res with
    | error e =>
      obtain ⟨ht2, hst2⟩ := execute_task_error_spec _ _ _ _ _ _ _ hstep
      simp only [runTasks, hstep] at h ⊢
      rw [hst2] at h
      rcases mem_upsertTask r (taskRowOf t2) st.tasks h with h1 | h2
      · refine Or.inr ⟨t2, List.mem_cons_self _ _, ?_, h1⟩
        rw [ht2]
        simp
      · exact Or.inl h2
    | ok r2 =>
      obtain ⟨ht2, hst2⟩ := execute_task_ok_spec _ _ _ _ _ _ _ hstep
      simp only [runTasks, hstep] at h ⊢
      rcases ih (nextParsed parsed t2 r2) st2 r h with h1 | ⟨t3, h3, h4, h5⟩
      · rw [hst2] at h1
        rcases mem_upsertTask r (taskRowOf t2) st.tasks h1 with h6 | h7
        · refine Or.inr ⟨t2, List.mem_cons_self _ _, ?_, h6⟩
          rw [ht2]
          simp
        · exact Or.inl h7
      · exact Or.inr ⟨t3, List.mem_cons_of_mem _ h3, h4, h5⟩

/-- The task loop emits only task-row write events. -/
theorem runTasks_events_saveTask (W : Worker) (now : String) :
    ∀ (tasks : List AgentTask) (parsed : Option Json) (st : Store) (ev : Event),
      ev ∈ (runTasks W now parsed st tasks).events →
      ∃ tr, ev = Event.saveTask tr := by
  intro tasks
  induction tasks with
  | nil =>
    intro parsed st ev h
    simp [runTasks] at h
  | cons t rest ih =>
    intro parsed st ev h
    rcases hstep : execute_task W now (injectParsed parsed t) st with ⟨res, t2, st2⟩
    cases res with
    | error e =>
      simp only [runTasks, hstep] at h
      rcases List.mem_cons.mp h with h1 | h2
      · exact ⟨taskRowOf t2, h1⟩
      · simp at h2
    | ok r =>
      simp only [runTasks, hstep] at h
      rcases List.mem_cons.mp h with h1 | h2
      · exact ⟨taskRowOf t2, h1⟩
      · exact ih _ _ ev h2

/-- Every task descriptor the planner emits starts in status `pending`. -/
theorem planEntry_pending (now : String) (p : ProjectInfo) (specFile : Option String)
    (i : Nat) (info : Json) (t : AgentTask)
    (h : planEntry now p specFile i info = Except.ok t) :
    t.status = TaskStatus.pending := by
  unfold planEntry at h
  split at h
  · split at h
    · cases h
      rfl
    · cases h
  · cases h

/-- Every task of a planner batch starts in status `pending`. -/
theorem planEntries_pending (now : String) (p : ProjectInfo) (specFile : Option String) :
    ∀ (infos : List Json) (i : Nat) (tasks : List AgentTask),
      planEntries now p specFile i infos = Except.ok tasks →
      ∀ t ∈ tasks, t.status = TaskStatus.pending := by
  intro infos
  induction infos with
  | nil =>
    intro i tasks h t ht
    simp only [planEntries] at h
    cases h
    simp at ht
  | cons info rest ih =>
    intro i tasks h t ht
    simp only [planEntries] at h
    cases hpe : planEntry now p specFile i info with
    | error e =>
      rw [hpe] at h
      cases h
    | ok t1 =>
      rw [hpe] at h
      cases hrec : planEntries now p specFile (i + 1) rest with
      | error e =>
        rw [hrec] at h
        cases h
      | ok ts =>
        rw [hrec] at h
        cases h
        rcases List.mem_cons.mp ht with h1 | h2
        · rw [h1]
          exact planEntry_pending now p specFile i info t1 hpe
        · exact ih (i + 1) ts hrec t h2

/-- Every task of the produced plan starts in status `pending`. -/
theorem create_task_plan_pending (now : String) (p : ProjectInfo) (analysis : Json)
    (tasks : List AgentTask)
    (h : create_task_plan now p analysis = Except.ok tasks) :
    ∀ t ∈ tasks, t.status = TaskStatus.pending := by
  unfold create_task_plan at h
  split at h
  · exact planEntries_pending now p (apiSpecFileOf p) _ 0 tasks h
  · cases h
  · cases h
    intro t ht
    simp at ht

/-- C6 counterexample: in a concrete successful run the very first
observable action is the planner invocation — no project-row write
precedes it (the single project save is the last of the four events),
so the project is not persisted before the planner is invoked. -/
theorem run_no_save_before_planner_cex :
    (execute_project_creation W0 (Except.ok simpleAnalysis) "T1" demoProject
        emptyStore).events.head? = some (Event.analyze TaskStatus.in_progress) ∧
    ((execute_project_creation W0 (Except.ok simpleAnalysis) "T1" demoProject
        emptyStore).events.takeWhile (fun ev => !ev.isSaveProject)).length = 3 ∧
    (execute_project_creation W0 (Except.ok simpleAnalysis) "T1" demoProject
        emptyStore).events.length = 4 ∧
    (execute_project_creation W0 (Except.ok simpleAnalysis) "T1" demoProject
        emptyStore).result.isOk = true := by
  refine ⟨rfl, rfl, rfl, rfl⟩

/-- C6 (amended): in every run the project status is set to
`in_progress` in memory before the planner is invoked, but the project
is not persisted at that point: the event trace starts with the
planner invocation (observing status `in_progress`), continues with
task-row writes only, and the single project-row write is the final
event, carrying the run's terminal project state. -/
theorem run_persists_project_only_at_end (W : Worker) (A : Except String Json)
    (now : String) (p : ProjectInfo) (st : Store) :
    ∃ mid prow,
      (execute_project_creation W A now p st).events =
        Event.analyze TaskStatus.in_progress :: mid ++ [Event.saveProject prow] ∧
      (∀ ev ∈ mid, ∃ tr, ev = Event.saveTask tr) ∧
      prow = projectRowOf (execute_project_creation W A now p st).project := by
  unfold execute_project_creation
  cases A with
  | error e =>
    refine ⟨[], projectRowOf (failedProject now p), by simp, by simp, rfl⟩
  | ok analysis =>
    simp only []
    cases hplan : create_task_plan now { p with status := TaskStatus.in_progress } analysis with
    | error e =>
      refine ⟨[], projectRowOf (failedProject now p), by simp, by simp, rfl⟩
    | ok tasks =>
      simp only []
      cases herr : (runTasks W now none st tasks).err with
      | some e =>
        refine ⟨(runTasks W now none st tasks).events,
          projectRowOf (failedProject now p), by simp, ?_, rfl⟩
        intro ev hev
        exact runTasks_events_saveTask W now tasks none st ev hev
      | none =>
        refine ⟨(runTasks W now none st tasks).events,
          projectRowOf (completedProject now p), by simp, ?_, rfl⟩
        intro ev hev
        exact runTasks_events_saveTask W now tasks none st ev hev

/-- C2 counterexample: a concrete run in which the planned task fails
(unregistered agent type) re-raises the exception instead of returning
the structured report. -/
theorem failing_task_run_raises_cex :
    (execute_project_creation W0 (Except.ok badAgentAnalysis) "T1" demoProject
        emptyStore).result = Except.error "Unknown agent type: db_agent" := rfl

/-- C2 (amended): when a planned task fails during execution, the
exception is recorded as that task's `error_message`, the task is
marked `failed` and persisted, and the project transitions to `failed`
and is persisted — but `execute_task` re-raises the exception and the
run's exception handler re-raises it again, so the run raises instead
of returning the structured report. -/
theorem failing_task_recorded_then_reraised (W : Worker) (A : Except String Json)
    (now : String) (p : ProjectInfo) (st : Store)
    (analysis : Json) (tasks : List AgentTask) (e : String)
    (hA : A = Except.ok analysis)
    (hplan : create_task_plan now { p with status := TaskStatus.in_progress } analysis =
      Except.ok tasks)
    (herr : (runTasks W now none st tasks).err = some e) :
    (execute_project_creation W A now p st).result = Except.error e ∧
    (execute_project_creation W A now p st).project.status = TaskStatus.failed ∧
    projectRowOf (execute_project_creation W A now p st).project ∈
      (execute_project_creation W A now p st).store.projects ∧
    ∃ pre tf suf,
      (execute_project_creation W A now p st).tasks = pre ++ tf :: suf ∧
      tf.status = TaskStatus.failed ∧
      tf.error_message = some e ∧
      taskRowOf tf ∈ (execute_project_creation W A now p st).store.tasks := by
  subst hA
  unfold execute_project_creation
  simp only []
  rw [hplan]
  simp only []
  rw [herr]
  obtain ⟨pre, tf, suf, htasks, hpre, htf, herrmsg, hrow, hsuf⟩ :=
    runTasks_err_spec W now tasks none st e herr
  exact ⟨rfl, rfl, mem_upsertProject_self _ _, pre, tf, suf, htasks, htf, herrmsg, hrow⟩

/-- C2 witness: the amended behaviour at the concrete failing run. -/
theorem failing_task_recorded_then_reraised_witness :
    (execute_project_creation W0 (Except.ok badAgentAnalysis) "T1" demoProject
        emptyStore).result = Except.error "Unknown agent type: db_agent" ∧
    (execute_project_creation W0 (Except.ok badAgentAnalysis) "T1" demoProject
        emptyStore).project.status = TaskStatus.failed ∧
    projectRowOf (execute_project_creation W0 (Except.ok badAgentAnalysis) "T1"
        demoProject emptyStore).project ∈
      (execute_project_creation W0 (Except.ok badAgentAnalysis) "T1" demoProject
        emptyStore).store.projects ∧
    ∃ pre tf suf,
      (execute_project_creation W0 (Except.ok badAgentAnalysis) "T1" demoProject
        emptyStore).tasks = pre ++ tf :: suf ∧
      tf.status = TaskStatus.failed ∧
      tf.error_message = some "Unknown agent type: db_agent" ∧
      taskRowOf tf ∈ (execute_project_creation W0 (Except.ok badAgentAnalysis) "T1"
        demoProject emptyStore).store.tasks :=
  failing_task_recorded_then_reraised W0 (Except.ok badAgentAnalysis) "T1"
    demoProject emptyStore badAgentAnalysis badPlanTasks
    "Unknown agent type: db_agent" rfl rfl rfl

/-- C3: after a run, the project is `completed` only if every planned
task object is `completed`; any failed task makes the project
`failed`; and on failure the task objects split into a completed
prefix, the failed task, and a suffix of never-executed tasks that is
exactly the tail of the original plan, still `pending`, and the task
table holds rows only for the executed prefix and the failed task. -/
theorem project_task_status_invariant (W : Worker) (A : Except String Json)
    (now : String) (p : ProjectInfo) (st : Store)
    (analysis : Json) (tasks : List AgentTask)
    (hA : A = Except.ok analysis)
    (hplan : create_task_plan now { p with status := TaskStatus.in_progress } analysis =
      Except.ok tasks)
    (hst : st.tasks = []) :
    ((execute_project_creation W A now p st).project.status = TaskStatus.completed →
      ∀ t1 ∈ (execute_project_creation W A now p st).tasks,
        t1.status = TaskStatus.completed) ∧
    ((∃ t1 ∈ (execute_project_creation W A now p st).tasks,
        t1.status = TaskStatus.failed) →
      (execute_project_creation W A now p st).project.status = TaskStatus.failed) ∧
    (∀ e, (execute_project_creation W A now p st).result = Except.error e →
      ∃ pre tf suf,
        (execute_project_creation W A now p st).tasks = pre ++ tf :: suf ∧
        (∀ t1 ∈ pre, t1.status = TaskStatus.completed) ∧
        tf.status = TaskStatus.failed ∧
        (∀ t1 ∈ suf, t1.status = TaskStatus.pending) ∧
        suf = tasks.drop (pre.length + 1) ∧
        (∀ r ∈ (execute_project_creation W A now p st).store.tasks,
          ∃ t1, (t1 ∈ pre ∨ t1 = tf) ∧ r = taskRowOf t1)) := by
  subst hA
  unfold execute_project_creation
  simp only []
  rw [hplan]
  simp only []
  cases herr : (runTasks W now none st tasks).err with
  | none =>
    refine ⟨?_, ?_, ?_⟩
    · intro _ t1 ht1
      exact runTasks_ok_all_completed W now tasks none st herr t1 ht1
    · rintro ⟨t1, ht1, hfail⟩
      have hc := runTasks_ok_all_completed W now tasks none st herr t1 ht1
      exact absurd (hc.symm.trans hfail) (by decide)
    · intro e hres
      simp at hres
  | some e =>
    refine ⟨?_, ?_, ?_⟩
    · intro hcomp
      simp [failedProject] at hcomp
    · intro _
      rfl
    · intro e2 hres
      have he : e = e2 := by simpa using hres
      subst he
      obtain ⟨pre, tf, suf, htasks, hpre, htf, herrmsg, hrow, hsuf⟩ :=
        runTasks_err_spec W now tasks none st e herr
      refine ⟨pre, tf, suf, htasks, hpre, htf, ?_, hsuf, ?_⟩
      · intro t1 ht1
        have hmem : t1 ∈ tasks := by
          rw [hsuf] at ht1
          exact List.drop_subset _ _ ht1
        exact create_task_plan_pending now _ analysis tasks hplan t1 hmem
      · intro r hr
        have hr2 : r ∈ (runTasks W now none st tasks).store.tasks := hr
        rcases runTasks_store_rows W now tasks none st r hr2 with h1 | ⟨t1, hmem, hnp, hrq⟩
        · rw [hst] at h1
          simp at h1
        · rw [htasks] at hmem
          rcases List.mem_append.mp hmem with hml | hmr
          · exact ⟨t1, Or.inl hml, hrq⟩
          · rcases List.mem_cons.mp hmr with h2 | h3
            · exact ⟨t1, Or.inr h2, hrq⟩
            · have hpend : t1.status = TaskStatus.pending := by
                rw [hsuf] at h3
                exact create_task_plan_pending now _ analysis tasks hplan t1
                  (List.drop_subset _ _ h3)
              exact absurd hpend hnp

/-- C3 witness: the invariant at a concrete run whose only planned
task fails. -/
theorem project_task_status_invariant_witness :
    ((execute_project_creation W0 (Except.ok badAgentAnalysis) "T1" demoProject
        emptyStore).project.status = TaskStatus.completed →
      ∀ t1 ∈ (execute_project_creation W0 (Except.ok badAgentAnalysis) "T1"
          demoProject emptyStore).tasks,
        t1.status = TaskStatus.completed) ∧
    ((∃ t1 ∈ (execute_project_creation W0 (Except.ok badAgentAnalysis) "T1"
        demoProject emptyStore).tasks,
        t1.status = TaskStatus.failed) →
      (execute_project_creation W0 (Except.ok badAgentAnalysis) "T1" demoProject
        emptyStore).project.status = TaskStatus.failed) ∧
    (∀ e, (execute_project_creation W0 (Except.ok badAgentAnalysis) "T1" demoProject
        emptyStore).result = Except.error e →
      ∃ pre tf suf,
        (execute_project_creation W0 (Except.ok badAgentAnalysis) "T1" demoProject
          emptyStore).tasks = pre ++ tf :: suf ∧
        (∀ t1 ∈ pre, t1.status = TaskStatus.completed) ∧
        tf.status = TaskStatus.failed ∧
        (∀ t1 ∈ suf, t1.status = TaskStatus.pending) ∧
        suf = badPlanTasks.drop (pre.length + 1) ∧
        (∀ r ∈ (execute_project_creation W0 (Except.ok badAgentAnalysis) "T1"
            demoProject emptyStore).store.tasks,
          ∃ t1, (t1 ∈ pre ∨ t1 = tf) ∧ r = taskRowOf t1)) :=
  project_task_status_invariant W0 (Except.ok badAgentAnalysis) "T1" demoProject
    emptyStore badAgentAnalysis badPlanTasks rfl rfl rfl

/-- C9 counterexample: executing a task with an unregistered agent
type raises, but a record of the task IS written to the Store — the
task row (marked failed) is present afterwards, contradicting the
claim that no record of the task is written. -/
theorem unknown_agent_persists_record_cex :
    (execute_task W0 "T1" unknownTask emptyStore).1 =
      Except.error "Unknown agent type: db_agent" ∧
    (execute_task W0 "T1" unknownTask emptyStore).2.2.tasks =
      [taskRowOf { unknownTask with
                   status := TaskStatus.failed,
                   error_message := some "Unknown agent type: db_agent" }] := by
  exact ⟨rfl, rfl⟩

/-- C9 (amended): for a task whose `agent_type` is not one of the
registered agent types, `execute_task` raises
`ValueError("Unknown agent type: ...")` synchronously, but before
re-raising it marks the task `failed`, records the message as
`error_message`, and persists the failed task to the Store. -/
theorem unknown_agent_raises_and_persists (W : Worker) (now : String)
    (t : AgentTask) (st : Store)
    (h : t.agent_type ∉ (["api_agent", "devops_agent", "parser_agent"] : List String)) :
    execute_task W now t st =
      (Except.error ("Unknown agent type: " ++ t.agent_type),
       { t with status := TaskStatus.failed,
                error_message := some ("Unknown agent type: " ++ t.agent_type) },
       (save_task { t with
                    status := TaskStatus.failed,
                    error_message := some ("Unknown agent type: " ++ t.agent_type) }
         st).2) ∧
    taskRowOf { t with
                status := TaskStatus.failed,
                error_message := some ("Unknown agent type: " ++ t.agent_type) } ∈
      (execute_task W now t st).2.2.tasks := by
  have h1 : ¬ (t.agent_type == "api_agent") = true := by
    intro hc
    exact h (by simp [eq_of_beq hc])
  have h2 : ¬ (t.agent_type == "devops_agent") = true := by
    intro hc
    exact h (by simp [eq_of_beq hc])
  have h3 : ¬ (t.agent_type == "parser_agent") = true := by
    intro hc
    exact h (by simp [eq_of_beq hc])
  have hd : dispatch W { t with status := TaskStatus.in_progress } =
      Except.error ("Unknown agent type: " ++ t.agent_type) := by
    unfold dispatch
    rw [if_neg h1, if_neg h2, if_neg h3]
  have hexec : execute_task W now t st =
      (Except.error ("Unknown agent type: " ++ t.agent_type),
       { t with status := TaskStatus.failed,
                error_message := some ("Unknown agent type: " ++ t.agent_type) },
       (save_task { t with
                    status := TaskStatus.failed,
                    error_message := some ("Unknown agent type: " ++ t.agent_type) }
         st).2) := by
    unfold execute_task
    rw [hd]
  refine ⟨hexec, ?_⟩
  rw [hexec]
  exact mem_upsertTask_self _ _

/-- C9 witness: the amended behaviour at a concrete unregistered task. -/
theorem unknown_agent_raises_and_persists_witness :
    execute_task W0 "T1" unknownTask emptyStore =
      (Except.error ("Unknown agent type: " ++ unknownTask.agent_type),
       { unknownTask with
         status := TaskStatus.failed,
         error_message := some ("Unknown agent type: " ++ unknownTask.agent_type) },
       (save_task { unknownTask with
                    status := TaskStatus.failed,
                    error_message := some ("Unknown agent type: " ++ unknownTask.agent_type) }
         emptyStore).2) ∧
    taskRowOf { unknownTask with
                status := TaskStatus.failed,
                error_message := some ("Unknown agent type: " ++ unknownTask.agent_type) } ∈
      (execute_task W0 "T1" unknownTask emptyStore).2.2.tasks :=
  unknown_agent_raises_and_persists W0 "T1" unknownTask emptyStore (by decide)

/-- The API-agent stub succeeds whenever the planner-standard
parameters are present. -/
theorem simulate_api_ok (t : AgentTask)
    (hout : (dget t.parameters "output_path").isSome = true)
    (hlang : (dget t.parameters "language").isSome = true)
    (hptype : (dget t.parameters "project_type").isSome = true) :
    ∃ r, simulate_api t = Except.ok r := by
  unfold simulate_api
  obtain ⟨vo, hvo⟩ := Option.isSome_iff_exists.mp hout
  obtain ⟨vl, hvl⟩ := Option.isSome_iff_exists.mp hlang
  obtain ⟨vp, hvp⟩ := Option.isSome_iff_exists.mp hptype
  by_cases h1 : (t.operation == "create_project_structure") = true
  · rw [if_pos h1, hvo, hvl, hvp]
    exact ⟨_, rfl⟩
  · rw [if_neg h1]
    by_cases h2 : (t.operation == "generate_tests") = true
    · rw [if_pos h2, hvo]
      exact ⟨_, rfl⟩
    · rw [if_neg h2]
      exact ⟨_, rfl⟩

/-- The DevOps-agent stub succeeds whenever `output_path` is present. -/
theorem simulate_devops_ok (t : AgentTask)
    (hout : (dget t.parameters "output_path").isSome = true) :
    ∃ r, simulate_devops t = Except.ok r := by
  unfold simulate_devops
  obtain ⟨vo, hvo⟩ := Option.isSome_iff_exists.mp hout
  by_cases h1 : (t.operation == "setup_environment") = true
  · rw [if_pos h1, hvo]
    exact ⟨_, rfl⟩
  · rw [if_neg h1]
    exact ⟨_, rfl⟩

/-- The parser-agent stub always succeeds. -/
theorem simulateParserStub_ok (t : AgentTask) :
    ∃ r, simulateParserStub t = Except.ok r := by
  unfold simulateParserStub
  by_cases h1 : (t.operation == "parse_api_specification") = true
  · rw [if_pos h1]
    exact ⟨_, rfl⟩
  · rw [if_neg h1]
    exact ⟨_, rfl⟩

/-- C5: when the real worker for a registered agent raises (here: an
oracle that always raises), dispatch falls back to the deterministic
per-`(agent_type, operation)` stub, `execute_task` completes the task
with that stub result and persists it, and the loop proceeds to the
remaining tasks. -/
theorem worker_failure_falls_back_to_stub (W : Worker) (now : String)
    (t : AgentTask) (st : Store) (rest : List AgentTask) (msg : String)
    (hreg : t.agent_type = "api_agent" ∨ t.agent_type = "devops_agent" ∨
      t.agent_type = "parser_agent")
    (hW : ∀ u, W u = Except.error msg)
    (hout : (dget t.parameters "output_path").isSome = true)
    (hlang : (dget t.parameters "language").isSome = true)
    (hptype : (dget t.parameters "project_type").isSome = true) :
    ∃ r t2,
      t2 = { t with status := TaskStatus.completed, completed_at := some now,
                    result := r } ∧
      ((t.agent_type = "api_agent" →
         simulate_api { t with status := TaskStatus.in_progress } = Except.ok r) ∧
       (t.agent_type = "devops_agent" →
         simulate_devops { t with status := TaskStatus.in_progress } = Except.ok r) ∧
       (t.agent_type = "parser_agent" →
         simulateParserStub { t with status := TaskStatus.in_progress } = Except.ok r)) ∧
      execute_task W now t st = (Except.ok r, t2, (save_task t2 st).2) ∧
      (runTasks W now none st (t :: rest)).tasks =
        t2 :: (runTasks W now (nextParsed none t2 r) (save_task t2 st).2 rest).tasks ∧
      (runTasks W now none st (t :: rest)).err =
        (runTasks W now (nextParsed none t2 r) (save_task t2 st).2 rest).err := by
  have hd : ∃ r, dispatch W { t with status := TaskStatus.in_progress } = Except.ok r ∧
      (t.agent_type = "api_agent" →
        simulate_api { t with status := TaskStatus.in_progress } = Except.ok r) ∧
      (t.agent_type = "devops_agent" →
        simulate_devops { t with status := TaskStatus.in_progress } = Except.ok r) ∧
      (t.agent_type = "parser_agent" →
        simulateParserStub { t with status := TaskStatus.in_progress } = Except.ok r) := by
    rcases hreg with ha | ha | ha
    · obtain ⟨r, hr⟩ := simulate_api_ok { t with status := TaskStatus.in_progress }
        hout hlang hptype
      refine ⟨r, ?_, fun _ => hr, ?_, ?_⟩
      · unfold dispatch
        have hb : (AgentTask.agent_type { t with status := TaskStatus.in_progress } ==
            "api_agent") = true := by
          simp [ha]
        rw [if_pos hb, hW, hr]
      · intro hc
        exact absurd (ha.symm.trans hc) (by decide)
      · intro hc
        exact absurd (ha.symm.trans hc) (by decide)
    · obtain ⟨r, hr⟩ := simulate_devops_ok { t with status := TaskStatus.in_progress } hout
      refine ⟨r, ?_, ?_, fun _ => hr, ?_⟩
      · unfold dispatch
        have hb1 : (AgentTask.agent_type { t with status := TaskStatus.in_progress } ==
            "api_agent") = false := by
          simp [ha]
        have hb2 : (AgentTask.agent_type { t with status := TaskStatus.in_progress } ==
            "devops_agent") = true := by
          simp [ha]
        rw [if_neg (by simp [hb1]), if_pos hb2, hW, hr]
      · intro hc
        exact absurd (ha.symm.trans hc) (by decide)
      · intro hc
        exact absurd (ha.symm.trans hc) (by decide)
    · obtain ⟨r, hr⟩ := simulateParserStub_ok { t with status := TaskStatus.in_progress }
      refine ⟨r, ?_, ?_, ?_, fun _ => hr⟩
      · unfold dispatch
        have hb1 : (AgentTask.agent_type { t with status := TaskStatus.in_progress } ==
            "api_agent") = false := by
          simp [ha]
        have hb2 : (AgentTask.agent_type { t with status := TaskStatus.in_progress } ==
            "devops_agent") = false := by
          simp [ha]
        have hb3 : (AgentTask.agent_type { t with status := TaskStatus.in_progress } ==
            "parser_agent") = true := by
          simp [ha]
        rw [if_neg (by simp [hb1]), if_neg (by simp [hb2]), if_pos hb3, hW, hr]
      · intro hc
        exact absurd (ha.symm.trans hc) (by decide)
      · intro hc
        exact absurd (ha.symm.trans hc) (by decide)
  obtain ⟨r, hdisp, hsims⟩ := hd
  have hexec : execute_task W now t st =
      (Except.ok r,
       { t with status := TaskStatus.completed, completed_at := some now, result := r },
       (save_task { t with status := TaskStatus.completed, completed_at := some now,
                           result := r } st).2) := by
    unfold execute_task
    rw [hdisp]
  have hexec2 : execute_task W now (injectParsed none t) st =
      (Except.ok r,
       { t with status := TaskStatus.completed, completed_at := some now, result := r },
       (save_task { t with status := TaskStatus.completed, completed_at := some now,
                           result := r } st).2) := hexec
  refine ⟨r, { t with status := TaskStatus.completed, completed_at := some now,
                      result := r }, rfl, hsims, hexec, ?_, ?_⟩
  · simp only [runTasks, hexec2]
  · simp only [runTasks, hexec2]

/-- C5 witness: a concrete API-agent task whose worker raises still
completes with the deterministic stub and the loop continues. -/
theorem worker_failure_falls_back_to_stub_witness :
    ∃ r t2,
      t2 = { apiTask with status := TaskStatus.completed, completed_at := some "T1",
                          result := r } ∧
      ((apiTask.agent_type = "api_agent" →
         simulate_api { apiTask with status := TaskStatus.in_progress } = Except.ok r) ∧
       (apiTask.agent_type = "devops_agent" →
         simulate_devops { apiTask with status := TaskStatus.in_progress } = Except.ok r) ∧
       (apiTask.agent_type = "parser_agent" →
         simulateParserStub { apiTask with status := TaskStatus.in_progress } = Except.ok r)) ∧
      execute_task W0 "T1" apiTask emptyStore = (Except.ok r, t2, (save_task t2 emptyStore).2) ∧
      (runTasks W0 "T1" none emptyStore (apiTask :: [])).tasks =
        t2 :: (runTasks W0 "T1" (nextParsed none t2 r) (save_task t2 emptyStore).2 []).tasks ∧
      (runTasks W0 "T1" none emptyStore (apiTask :: [])).err =
        (runTasks W0 "T1" (nextParsed none t2 r) (save_task t2 emptyStore).2 []).err :=
  worker_failure_falls_back_to_stub W0 "T1" apiTask emptyStore [] "agent unavailable"
    (Or.inl rfl) (fun _ => rfl) rfl rfl rfl

/-- C8 counterexample: the same project state yields different ordered
`(agent_type, operation)` sequences under two responses the AI
connector can return (a parsed task sequence vs. the
`{"response": text}` fallback for unparseable model output), so the
planned sequence is not a function of the Project state alone. -/
theorem planner_depends_on_ai_response_cex :
    plannedOps "T1" demoProject simpleAnalysis =
      Except.ok [("api_agent", "create_project_structure"),
                 ("devops_agent", "create_docker_setup")] ∧
    plannedOps "T1" demoProject noSeqAnalysis = Except.ok [] ∧
    Except.ok ([("api_agent", "create_project_structure"),
                ("devops_agent", "create_docker_setup")] : List (String × String)) ≠
      (Except.ok ([] : List (String × String)) : Except String (List (String × String))) := by
  refine ⟨rfl, rfl, ?_⟩
  intro h
  have h2 := Except.ok.inj h
  simp at h2

/-- C8 (amended): the analysis + task-plan construction is pure and
deterministic as a function of the Project state and of the AI
connector's structured response: whenever two responses agree on their
`task_sequence` field, the resulting ordered `(agent_type, operation)`
sequences coincide.  The response itself comes from an external model
call, so it is an input, not a function of the Project state. -/
theorem planner_deterministic_given_response (now : String) (p : ProjectInfo)
    (r1 r2 : Json)
    (h : r1.get? "task_sequence" = r2.get? "task_sequence") :
    plannedOps now p r1 = plannedOps now p r2 := by
  unfold plannedOps create_task_plan
  rw [h]

/-- C8 witness: two distinct responses with the same `task_sequence`
produce the same plan. -/
theorem planner_deterministic_given_response_witness :
    plannedOps "T1" demoProject simpleAnalysis =
      plannedOps "T1" demoProject simpleAnalysisVariant :=
  planner_deterministic_given_response "T1" demoProject simpleAnalysis
    simpleAnalysisVariant rfl

/-- C1 counterexample: `AgentOrchestrator.create_new_project` itself
performs no path check — called directly with an output path nested
under the orchestrator directory (here `"C:\\orch"`), it registers the
project in memory and persists a project record, refuting the claim
for the core method; the pre-flight check lives only in the CLI
`create_project` command that wraps it. -/
theorem create_new_project_no_guard_cex :
    pyStartsWith "C:\\orch\\sub\\demo" "C:\\orch" = true ∧
    (create_new_project "id1" "T0" "demo" ProjectType.api ProjectLanguage.java
        "C:\\orch\\sub\\demo" none [] emptyStore).2.2.projects.length = 1 ∧
    (create_new_project "id1" "T0" "demo" ProjectType.api ProjectLanguage.java
        "C:\\orch\\sub\\demo" none [] emptyStore).2.1.length = 1 := by
  exact ⟨rfl, rfl, rfl⟩
